import Mathlib

/-!
# Verification of the tcpraw packet engine (`tcp.go`)

Shallow embedding of the flow-table state machine of `tcpraw`: per-peer TCP
flows keyed by peer address, the capture-loop per-packet transition
(`captureFlow`), the `WriteTo` / `ReadFrom` / `Close` operations of `TCPConn`,
and theorems checking the specification's claims against them.

Machine integers (`uint32` sequence and acknowledgment numbers) are modelled
as `Nat` with explicit reduction modulo `2 ^ 32` at every arithmetic update,
matching Go's wrapping `uint32` arithmetic.  Go `nil` pointers and `nil`
interface values are modelled with `Option`; a Go type assertion on a `nil`
interface value (which panics at run time) is modelled as a distinguished
`typeAssertPanic` outcome.
-/

namespace Tcpraw

/-- Wrapping 32-bit arithmetic: Go `uint32` values as `Nat` mod `2 ^ 32`. -/
def wrap32 (n : Nat) : Nat := n % (2 ^ 32)

/-- A peer address: `net.TCPAddr` restricted to the fields the engine uses.
The flow-table key `addr.String()` is injective on these, so the address
itself serves as the key. -/
structure TCPAddr where
  ip : List Nat
  port : Nat
deriving DecidableEq, Repr

/-- Ethernet link-layer header fields used by the engine
(`layers.Ethernet`). -/
structure EthernetLayer where
  ethernetType : Nat
  srcMAC : List Nat
  dstMAC : List Nat
deriving DecidableEq, Repr

/-- Loopback/BSD-family link-layer header (`layers.Loopback`). -/
structure LoopbackLayer where
  family : Nat
deriving DecidableEq, Repr

/-- IPv4 network-layer header fields used by the engine (`layers.IPv4`). -/
structure IPv4Layer where
  srcIP : List Nat
  dstIP : List Nat
  protocol : Nat
  version : Nat
  id : Nat
  flags : Nat
  ttl : Nat
deriving DecidableEq, Repr

/-- IPv6 network-layer header fields used by the engine (`layers.IPv6`). -/
structure IPv6Layer where
  version : Nat
  nextHeader : Nat
  srcIP : List Nat
  dstIP : List Nat
  hopLimit : Nat
deriving DecidableEq, Repr

/-- Value of the `layers.IPv4DontFragment` flag. -/
def ipv4DontFragment : Nat := 2

/-- A `gopacket.SerializableLayer` value as stored in a flow's
`linkLayer` / `networkLayer` fields. -/
inductive SerializableLayer where
  | eth (e : EthernetLayer)
  | loopback (l : LoopbackLayer)
  | ip4 (n : IPv4Layer)
  | ip6 (n : IPv6Layer)
deriving DecidableEq, Repr

/-- Whether a `SerializableLayer` also implements `gopacket.NetworkLayer`
(the dynamic type check behind the `flow.networkLayer.(gopacket.NetworkLayer)`
type assertion in `WriteTo`). -/
def SerializableLayer.isNetwork : SerializableLayer → Bool
  | .ip4 _ => true
  | .ip6 _ => true
  | _ => false

/-- TCP header fields used by the engine (`layers.TCP`); `payload` is the
segment payload attached to the decoded transport layer. -/
structure TCPLayer where
  srcPort : Nat
  dstPort : Nat
  seq : Nat
  ack : Nat
  fin : Bool
  syn : Bool
  rst : Bool
  psh : Bool
  ackFlag : Bool
  window : Nat
  payload : List Nat
deriving DecidableEq, Repr

/-- A decoded inbound packet: optional link and network layers plus the
mandatory TCP transport layer (the BPF filter admits only TCP). -/
structure Packet where
  eth : Option EthernetLayer
  loop : Option LoopbackLayer
  ip4 : Option IPv4Layer
  ip6 : Option IPv6Layer
  tcp : TCPLayer
deriving DecidableEq, Repr

/-- Per-peer flow state `tcpFlow`.  `handle` is the pcap injection handle
(identified by a number; `none` is the Go zero value `nil`), `ready` is the
one-shot latch (`true` once `close(e.ready)` has run), `seq`/`ack` are the
`uint32` counters, and the two template layers are `nil`-able interface
values. -/
structure tcpFlow where
  handle : Option Nat
  ready : Bool
  seq : Nat
  ack : Nat
  linkLayer : Option SerializableLayer
  networkLayer : Option SerializableLayer
deriving DecidableEq, Repr

/-- The entry `lockflow` default-creates on first visit: the Go zero value
of `tcpFlow` with a fresh (unsignaled) `ready` channel. -/
def defaultFlow : tcpFlow :=
  { handle := none, ready := false, seq := 0, ack := 0
    linkLayer := none, networkLayer := none }

/-- The flow table `conn.flows`, keyed by peer address. -/
abbrev FlowTable := List (TCPAddr × tcpFlow)

/-- Map lookup `conn.flows[key]`. -/
def ftLookup : FlowTable → TCPAddr → Option tcpFlow
  | [], _ => none
  | (b, x) :: rest, a => if b = a then some x else ftLookup rest a

/-- Map write-back `conn.flows[key] = e`. -/
def ftInsert : FlowTable → TCPAddr → tcpFlow → FlowTable
  | [], a, e => [(a, e)]
  | (b, x) :: rest, a, e =>
      if b = a then (a, e) :: rest else (b, x) :: ftInsert rest a e

/-- Map removal `delete(conn.flows, key)` (the body of
`TCPConn.deleteflow`). -/
def ftDelete : FlowTable → TCPAddr → FlowTable
  | [], _ => []
  | (b, x) :: rest, a =>
      if b = a then ftDelete rest a else (b, x) :: ftDelete rest a

/-- Body of `TCPConn.lockflow`: fetch the entry (default-creating it with a fresh
`ready` latch on first visit), apply `f` to it, write it back.  Returns the
updated table together with the entry value after `f` (the value visible to
the caller through the closure's side effects). -/
def lockflow (ft : FlowTable) (addr : TCPAddr) (f : tcpFlow → tcpFlow) :
    FlowTable × tcpFlow :=
  let e := match ftLookup ft addr with
    | some e => e
    | none => defaultFlow
  let e2 := f e
  (ftInsert ft addr e2, e2)

theorem ftLookup_insert (ft : FlowTable) (a b : TCPAddr) (e : tcpFlow) :
    ftLookup (ftInsert ft a e) b = if b = a then some e else ftLookup ft b := by
  induction ft with
  | nil =>
      by_cases h : b = a
      · subst h; simp [ftInsert, ftLookup]
      · have h2 : ¬a = b := fun hh => h hh.symm
        simp [ftInsert, ftLookup, h, h2]
  | cons hd tl ih =>
      obtain ⟨c, x⟩ := hd
      by_cases hca : c = a
      · simp only [ftInsert, if_pos hca, ftLookup]
        by_cases hba : b = a
        · rw [if_pos hba.symm, if_pos hba]
        · have hab : ¬a = b := fun hh => hba hh.symm
          have hcb : ¬c = b := fun hh => hba (hh.symm.trans hca)
          simp [hab, hba, hcb]
      · simp only [ftInsert, if_neg hca, ftLookup]
        rw [ih]
        by_cases hcb : c = b
        · have hba : ¬b = a := fun hh => hca (hcb.trans hh)
          simp [hcb, hba]
        · simp [hcb]

theorem ftLookup_delete (ft : FlowTable) (a b : TCPAddr) :
    ftLookup (ftDelete ft a) b = if b = a then none else ftLookup ft b := by
  induction ft with
  | nil => simp [ftDelete, ftLookup]
  | cons hd tl ih =>
      obtain ⟨c, x⟩ := hd
      by_cases hca : c = a
      · simp only [ftDelete, if_pos hca]
        rw [ih]
        by_cases hba : b = a
        · simp [hba]
        · have hcb : ¬c = b := fun hh => hba (hh.symm.trans hca)
          simp [ftLookup, hba, hcb]
      · simp only [ftDelete, if_neg hca, ftLookup]
        rw [ih]
        by_cases hcb : c = b
        · have hba : ¬b = a := fun hh => hca (hcb.trans hh)
          simp [hcb, hba]
        · simp [hcb]

/-- Membership after `ftInsert`: every entry is the inserted one or an
entry of the original table. -/
theorem mem_ftInsert {ft : FlowTable} {a : TCPAddr} {e : tcpFlow}
    {pr : TCPAddr × tcpFlow} (h : pr ∈ ftInsert ft a e) :
    pr = (a, e) ∨ pr ∈ ft := by
  induction ft with
  | nil =>
      simp [ftInsert] at h
      exact Or.inl h
  | cons hd tl ih =>
      obtain ⟨c, x⟩ := hd
      by_cases hca : c = a
      · subst hca
        simp [ftInsert] at h
        rcases h with h | h
        · exact Or.inl h
        · exact Or.inr (List.mem_cons_of_mem _ h)
      · simp [ftInsert, hca] at h
        rcases h with h | h
        · exact Or.inr (by simp [h])
        · rcases ih h with h2 | h2
          · exact Or.inl h2
          · exact Or.inr (List.mem_cons_of_mem _ h2)

/-- Membership after `ftDelete`: every surviving entry was in the original
table. -/
theorem mem_ftDelete {ft : FlowTable} {a : TCPAddr}
    {pr : TCPAddr × tcpFlow} (h : pr ∈ ftDelete ft a) : pr ∈ ft := by
  induction ft with
  | nil => simp [ftDelete] at h
  | cons hd tl ih =>
      obtain ⟨c, x⟩ := hd
      by_cases hca : c = a
      · subst hca
        simp [ftDelete] at h
        exact List.mem_cons_of_mem _ (ih h)
      · simp [ftDelete, hca] at h
        rcases h with h | h
        · simp [h]
        · exact List.mem_cons_of_mem _ (ih h)

/-! ## Capture loop (`TCPConn.captureFlow`, lines 87-173) -/

/-- An inbound message `(payload bytes, peer address)` as queued on
`conn.chMessage`. -/
structure message where
  bts : List Nat
  addr : TCPAddr
deriving DecidableEq, Repr

/-- Peer-address extraction (lines 94-105): source IP from the IPv4 layer,
else from the IPv6 layer, else `nil`; port is the TCP source port. -/
def packetAddr (pkt : Packet) : TCPAddr :=
  match pkt.ip4 with
  | some network => ⟨network.srcIP, pkt.tcp.srcPort⟩
  | none =>
    match pkt.ip6 with
    | some network => ⟨network.srcIP, pkt.tcp.srcPort⟩
    | none => ⟨[], pkt.tcp.srcPort⟩

/-- The `default:` branch of the select in lines 110-155, entered when the
entry's `ready` latch is not yet signaled: record `ack` and the arrival
handle, then build the link-layer and network-layer templates by reflection.
An early `return` (no usable link or network layer) keeps the mutations made
so far — `lockflow` still writes the entry back. -/
def flowInit (h : Nat) (pkt : Packet) (e : tcpFlow) : tcpFlow :=
  let e := { e with ack := pkt.tcp.seq, handle := some h }
  let linkRes : Option SerializableLayer :=
    match pkt.eth with
    | some ethLayer =>
        some (.eth { ethernetType := ethLayer.ethernetType
                     srcMAC := ethLayer.dstMAC, dstMAC := ethLayer.srcMAC })
    | none =>
      match pkt.loop with
      | some loopLayer => some (.loopback { family := loopLayer.family })
      | none => none
  match linkRes with
  | none => e
  | some ll =>
    let e := { e with linkLayer := some ll }
    let netRes : Option SerializableLayer :=
      match pkt.ip4 with
      | some network =>
          some (.ip4 { srcIP := network.dstIP, dstIP := network.srcIP
                       protocol := network.protocol, version := network.version
                       id := network.id, flags := ipv4DontFragment, ttl := 0x40 })
      | none =>
        match pkt.ip6 with
        | some network =>
            some (.ip6 { version := network.version
                         nextHeader := network.nextHeader
                         srcIP := network.dstIP, dstIP := network.srcIP
                         hopLimit := 0x40 })
        | none => none
    match netRes with
    | none => e
    | some nl => { e with networkLayer := some nl, ready := true }

/-- Lines 107-157: for a segment with neither FIN nor RST, enter the flow
entry, always follow the peer's cumulative ack (`e.seq = transport.Ack`),
and run template initialization if `ready` has not been signaled. -/
def pktPhase1 (h : Nat) (ft : FlowTable) (pkt : Packet) : FlowTable :=
  if !pkt.tcp.fin && !pkt.tcp.rst then
    (lockflow ft (packetAddr pkt) (fun e =>
      let e := { e with seq := pkt.tcp.ack }
      if e.ready then e else flowInit h pkt e)).1
  else ft

/-- Outcome of one capture-loop iteration besides the table update. -/
inductive StepEmit where
  | silent : StepEmit
  | pushed (m : message) : StepEmit
  | dieExit : StepEmit
deriving DecidableEq, Repr

/-- Lines 159-170: the `else if` chain on SYN / PSH / FIN-or-RST.  For a PSH
segment the payload is offered on the rendezvous channel; the competing
`<-conn.die` case of that select is taken (and the loop exits) only when the
shutdown latch is closed, which `dieClosed` records. -/
def pktPhase2 (dieClosed : Bool) (ft : FlowTable) (pkt : Packet) :
    FlowTable × StepEmit :=
  let addr := packetAddr pkt
  if pkt.tcp.syn then
    ((lockflow ft addr (fun e => { e with ack := wrap32 (e.ack + 1) })).1, .silent)
  else if pkt.tcp.psh then
    let ft2 := (lockflow ft addr
      (fun e => { e with ack := wrap32 (e.ack + pkt.tcp.payload.length) })).1
    if dieClosed then (ft2, .dieExit)
    else (ft2, .pushed ⟨pkt.tcp.payload, addr⟩)
  else if pkt.tcp.fin || pkt.tcp.rst then
    (ftDelete ft addr, .silent)
  else (ft, .silent)

/-- One full capture-loop iteration (lines 91-170) on handle `h`. -/
def processPacket (dieClosed : Bool) (h : Nat) (ft : FlowTable)
    (pkt : Packet) : FlowTable × StepEmit :=
  pktPhase2 dieClosed (pktPhase1 h ft pkt) pkt

/-! ## `WriteTo` (lines 186-232) -/

/-- Connection data `WriteTo` reads besides the flow table. -/
structure ConnCfg where
  localPort : Nat
deriving DecidableEq, Repr

/-- An error value from the external pcap library
(`pcap.Handle.WritePacketData`). -/
structure Err where
  code : Nat
deriving DecidableEq, Repr

/-- The layer stack handed to `gopacket.SerializeLayers` (line 224): link
template (possibly `nil`), network template, synthesized TCP header, and the
payload layer. -/
structure Frame where
  link : Option SerializableLayer
  net : SerializableLayer
  tcp : TCPLayer
  payload : List Nat
deriving DecidableEq, Repr

/-- Result of a `WriteTo` call.  `eof` is `return 0, io.EOF`; `blocked`
means the call is suspended on the fetched `ready` latch with the shutdown
latch open; `typeAssertPanic` is the run-time panic of the
`flow.networkLayer.(gopacket.NetworkLayer)` type assertion on a `nil` (or
non-network) interface value; `injectFail` is `return 0, err` after a failed
`WritePacketData`; `ok n f` is `return len(p), nil` having injected `f`. -/
inductive WriteResult where
  | eof : WriteResult
  | blocked : WriteResult
  | typeAssertPanic : WriteResult
  | injectFail (e : Err) (f : Frame) : WriteResult
  | ok (n : Nat) (f : Frame) : WriteResult
deriving DecidableEq, Repr

/-- Bytes reported to the caller (`n` in `return n, err`). -/
def WriteResult.bytes : WriteResult → Nat
  | .ok n _ => n
  | _ => 0

/-- The `layers.TCP` literal of lines 210-218: source port from the local
address, destination port from the resolved peer address, window 12580,
`seq`/`ack` from the snapshot, PSH and ACK set (all other fields zero). -/
def mkWriteTCP (cfg : ConnCfg) (addr : TCPAddr) (flow : tcpFlow) : TCPLayer :=
  { srcPort := cfg.localPort, dstPort := addr.port
    seq := flow.seq, ack := flow.ack
    fin := false, syn := false, rst := false
    psh := true, ackFlag := true
    window := 12580, payload := [] }

/-- Lines 195-230, the body after the ready wait: snapshot the flow entry
(line 208 — this `lockflow` default-creates the entry if it was deleted
meanwhile), build the TCP header, assert the network layer, serialize, and
on successful injection advance `seq` by the payload length.  `inj` is the
result of the external `WritePacketData` call (`none` = success).  Address
resolution of `addr.String()` (line 195) round-trips to `addr` itself and
is elided. -/
def writeToAfterWait (cfg : ConnCfg) (ft : FlowTable) (addr : TCPAddr)
    (p : List Nat) (inj : Option Err) : FlowTable × WriteResult :=
  let fetched := lockflow ft addr (fun e => e)
  let ft1 := fetched.1
  let flow := fetched.2
  match flow.networkLayer with
  | none => (ft1, .typeAssertPanic)
  | some nl =>
    if nl.isNetwork then
      let frame : Frame :=
        { link := flow.linkLayer, net := nl
          tcp := mkWriteTCP cfg addr flow, payload := p }
      match inj with
      | some e => (ft1, .injectFail e frame)
      | none =>
        let ft2 := (lockflow ft1 addr
          (fun e => { e with seq := wrap32 (e.seq + p.length) })).1
        (ft2, .ok p.length frame)
    else (ft1, .typeAssertPanic)

/-- Body of `TCPConn.WriteTo` (lines 187-232) for a call that is not interleaved
with other operations: fetch the `ready` latch (line 189, default-creating
the entry), then the select on the shutdown latch and the fetched `ready`
channel (lines 191-194).  When both channels are ready Go picks a case
pseudo-randomly; `dieChoice` records that pick.  When only `die` is ready
the call returns EOF; when neither is, it suspends (`blocked`). -/
def writeTo (cfg : ConnCfg) (dieClosed dieChoice : Bool) (ft : FlowTable)
    (addr : TCPAddr) (p : List Nat) (inj : Option Err) :
    FlowTable × WriteResult :=
  let fetched := lockflow ft addr (fun e => e)
  let ft1 := fetched.1
  let readyClosed := fetched.2.ready
  if dieClosed && (dieChoice || !readyClosed) then (ft1, .eof)
  else if !readyClosed then (ft1, .blocked)
  else writeToAfterWait cfg ft1 addr p inj

/-! ## `ReadFrom` (lines 176-184) -/

/-- Result of a `ReadFrom` call: end-of-stream, a delivered message
(`n`, the buffer after `copy`, and the peer address), or suspension. -/
inductive ReadResult where
  | eof : ReadResult
  | msg (n : Nat) (buf : List Nat) (addr : TCPAddr) : ReadResult
  | blocked : ReadResult
deriving DecidableEq, Repr

/-- Go's `copy(dst, src)`: copies `min |dst| |src|` bytes into the front of
`dst` and returns the new buffer contents together with that count. -/
def goCopy (dst src : List Nat) : List Nat × Nat :=
  let n := min dst.length src.length
  (src.take n ++ dst.drop n, n)

/-- Body of `TCPConn.ReadFrom` (lines 176-184).  `pending` is the message a
capture-loop producer is currently offering on the rendezvous channel
`chMessage` (`none` if no producer is blocked sending).  When both select
cases are ready Go picks pseudo-randomly; `dieChoice` records that pick. -/
def readFrom (dieClosed dieChoice : Bool) (pending : Option message)
    (p : List Nat) : ReadResult :=
  match pending with
  | some m =>
    if dieClosed && dieChoice then .eof
    else
      let copied := goCopy p m.bts
      .msg copied.2 copied.1 m.addr
  | none => if dieClosed then .eof else .blocked

/-! ## `Close` (lines 235-250) -/

/-- The connection state `Close` manipulates.  `dieDone` is the consumed
flag of `conn.dieOnce`; `handleCloses` counts pcap handle `Close()` calls
and `socketCloses` counts shadow-socket `Close()` calls (for the
exactly-once claims); `socketTTL` is the IP TTL of the shadow socket, and
`socketIsTCP` whether `conn.socket.(*net.TCPConn)` succeeds (client side).
`socketCloseErr` is what the external `conn.socket.Close()` returns when it
runs. -/
structure CloseState where
  dieDone : Bool
  dieClosed : Bool
  numHandles : Nat
  handleCloses : Nat
  socketCloses : Nat
  socketTTL : Nat
  socketIsTCP : Bool
  socketCloseErr : Option Err
deriving DecidableEq, Repr

/-- Body of `TCPConn.Close` (lines 235-250): `err` is a per-call local that only the
first caller's `dieOnce.Do` body assigns; later calls return the zero value
`nil`. -/
def closeConn (s : CloseState) : Option Err × CloseState :=
  if s.dieDone then (none, s)
  else
    (s.socketCloseErr,
     { s with
        dieDone := true
        dieClosed := true
        handleCloses := s.handleCloses + s.numHandles
        socketTTL := if s.socketIsTCP then 64 else s.socketTTL
        socketCloses := s.socketCloses + 1 })

/-! ## System steps on the flow table

Every mutation of `conn.flows` in the source goes through `lockflow` or
`deleteflow`, from one of four places: a capture-loop iteration
(lines 107-170), the `ready` fetch of `WriteTo` (line 189), the snapshot
fetch of `WriteTo` (line 208), and the `seq` advance of `WriteTo`
(line 229).  `TableOp` enumerates these atomic accesses. -/

inductive TableOp where
  | pkt (dieClosed : Bool) (h : Nat) (p : Packet) : TableOp
  | wFetch (addr : TCPAddr) : TableOp
  | wSnap (addr : TCPAddr) : TableOp
  | wAdvance (addr : TCPAddr) (n : Nat) : TableOp
deriving DecidableEq, Repr

/-- Effect of one atomic flow-table access. -/
def applyOp : TableOp → FlowTable → FlowTable
  | .pkt dieClosed h p, ft => (processPacket dieClosed h ft p).1
  | .wFetch addr, ft => (lockflow ft addr (fun e => e)).1
  | .wSnap addr, ft => (lockflow ft addr (fun e => e)).1
  | .wAdvance addr n, ft =>
      (lockflow ft addr (fun e => { e with seq := wrap32 (e.seq + n) })).1

/-- Effect of a sequence of atomic accesses, oldest first. -/
def applyOps (ops : List TableOp) (ft : FlowTable) : FlowTable :=
  match ops with
  | [] => ft
  | op :: rest => applyOps rest (applyOp op ft)

/-- A flow entry is well-formed when a signaled `ready` latch implies the
injection handle and both header templates are installed. -/
def flowOk (x : tcpFlow) : Prop :=
  x.ready = true →
    x.handle.isSome = true ∧ x.linkLayer.isSome = true ∧
    x.networkLayer.isSome = true

instance (x : tcpFlow) : Decidable (flowOk x) := by
  unfold flowOk
  infer_instance

/-- Invariant: every entry whose `ready` latch has been signaled has its
injection handle and both header templates installed. -/
def readyPopulated (ft : FlowTable) : Prop :=
  ∀ pr ∈ ft, flowOk pr.2

instance (ft : FlowTable) : Decidable (readyPopulated ft) := by
  unfold readyPopulated
  infer_instance

/-! ## Sequences of `WriteTo` calls (for the seq-accumulation claim) -/

/-- Run a sequence of `WriteTo` calls to the same peer back to back, with
the shutdown latch open and every injection succeeding, collecting each
call's result. -/
def runWrites (cfg : ConnCfg) (ft : FlowTable) (addr : TCPAddr) :
    List (List Nat) → FlowTable × List WriteResult
  | [] => (ft, [])
  | p :: rest =>
    let first := writeTo cfg false false ft addr p none
    let later := runWrites cfg first.1 addr rest
    (later.1, first.2 :: later.2)

/-- Total payload length of a list of payloads. -/
def sumLen (ps : List (List Nat)) : Nat :=
  match ps with
  | [] => 0
  | p :: rest => p.length + sumLen rest

/-! ## Concrete fixtures (used by counterexamples and witnesses) -/

/-- A concrete peer address, `127.0.0.1:9000`. -/
def peerA : TCPAddr := ⟨[127, 0, 0, 1], 9000⟩

/-- A concrete IPv4 template as `flowInit` would store it. -/
def ip4Tmpl : IPv4Layer :=
  { srcIP := [10, 0, 0, 2], dstIP := [127, 0, 0, 1], protocol := 6
    version := 4, id := 7, flags := ipv4DontFragment, ttl := 0x40 }

/-- A populated, ready flow entry for `peerA`. -/
def popFlow : tcpFlow :=
  { handle := some 1, ready := true, seq := 100, ack := 200
    linkLayer := some (.loopback ⟨2⟩), networkLayer := some (.ip4 ip4Tmpl) }

/-- The IPv4 layer of an inbound packet from `peerA`. -/
def ip4FromPeer : IPv4Layer :=
  { srcIP := [127, 0, 0, 1], dstIP := [10, 0, 0, 2], protocol := 6
    version := 4, id := 7, flags := 0, ttl := 64 }

/-- A TCP header from `peerA` with no flags of interest set. -/
def baseTcp : TCPLayer :=
  { srcPort := 9000, dstPort := 4000, seq := 500, ack := 300
    fin := false, syn := false, rst := false, psh := false, ackFlag := true
    window := 65535, payload := [] }

/-- An inbound RST segment from `peerA` (loopback link layer). -/
def rstPkt : Packet :=
  { eth := none, loop := some ⟨2⟩, ip4 := some ip4FromPeer, ip6 := none
    tcp := { baseTcp with rst := true } }

/-- An inbound segment from `peerA` carrying both FIN and SYN. -/
def finSynPkt : Packet :=
  { eth := none, loop := some ⟨2⟩, ip4 := some ip4FromPeer, ip6 := none
    tcp := { baseTcp with fin := true, syn := true } }

/-- A concrete connection with local port 4000. -/
def cfgA : ConnCfg := ⟨4000⟩

/-! ## Helper lemmas -/

theorem ftLookup_lockflow (ft : FlowTable) (b a : TCPAddr) (f : tcpFlow → tcpFlow) :
    ftLookup (lockflow ft b f).1 a =
      if a = b then some (f ((ftLookup ft b).getD defaultFlow))
      else ftLookup ft a := by
  unfold lockflow
  cases h : ftLookup ft b <;> simp [h, ftLookup_insert]

theorem ftInsert_ftInsert (ft : FlowTable) (a : TCPAddr) (e1 e2 : tcpFlow) :
    ftInsert (ftInsert ft a e1) a e2 = ftInsert ft a e2 := by
  induction ft with
  | nil => simp [ftInsert]
  | cons hd tl ih =>
      obtain ⟨c, x⟩ := hd
      by_cases hca : c = a
      · simp [ftInsert, hca]
      · simp [ftInsert, hca, ih]

theorem ftLookup_mem {ft : FlowTable} {a : TCPAddr} {x : tcpFlow}
    (h : ftLookup ft a = some x) : (a, x) ∈ ft := by
  induction ft with
  | nil => simp [ftLookup] at h
  | cons hd tl ih =>
      obtain ⟨c, y⟩ := hd
      by_cases hca : c = a
      · subst hca
        simp [ftLookup] at h
        simp [h]
      · simp [ftLookup, hca] at h
        exact List.mem_cons_of_mem _ (ih h)

/-- One successful `WriteTo` to a ready, populated flow: the injected frame
and the resulting table, in closed form. -/
theorem writeTo_ok_step (cfg : ConnCfg) (ft : FlowTable) (addr : TCPAddr)
    (p : List Nat) (e : tcpFlow) (nl : SerializableLayer)
    (hl : ftLookup ft addr = some e) (hr : e.ready = true)
    (hn : e.networkLayer = some nl) (hnet : nl.isNetwork = true) :
    writeTo cfg false false ft addr p none =
      (ftInsert ft addr { e with seq := wrap32 (e.seq + p.length) },
       .ok p.length { link := e.linkLayer, net := nl
                      tcp := mkWriteTCP cfg addr e, payload := p }) := by
  unfold writeTo writeToAfterWait
  simp only [hl, hr, lockflow, ftLookup_insert, if_pos rfl]
  simp [hn, hnet, ftInsert_ftInsert, hr]

/-- One `WriteTo` to a ready, populated flow whose injection fails: the
error is surfaced and the table keeps the same entry. -/
theorem writeTo_fail_step (cfg : ConnCfg) (ft : FlowTable) (addr : TCPAddr)
    (p : List Nat) (er : Err) (e : tcpFlow) (nl : SerializableLayer)
    (hl : ftLookup ft addr = some e) (hr : e.ready = true)
    (hn : e.networkLayer = some nl) (hnet : nl.isNetwork = true) :
    writeTo cfg false false ft addr p (some er) =
      (ftInsert ft addr e,
       .injectFail er { link := e.linkLayer, net := nl
                        tcp := mkWriteTCP cfg addr e, payload := p }) := by
  unfold writeTo writeToAfterWait
  simp only [hl, hr, lockflow, ftLookup_insert, if_pos rfl]
  simp [hn, hnet, ftInsert_ftInsert]

/-! ## Claim theorems -/

/-- C7: every frame injected by `WriteTo` (whether or not the raw injection
then succeeds) carries a TCP header whose source port is the connection's
local port, destination port is the peer's port, window field equals 12580,
PSH and ACK flags are set, and whose seq and ack fields come from the flow
snapshot made after the ready wait. -/
theorem writeTo_frame_header (cfg : ConnCfg) (ft : FlowTable) (addr : TCPAddr)
    (p : List Nat) (inj : Option Err) (e : tcpFlow) (nl : SerializableLayer)
    (hl : ftLookup ft addr = some e) (hr : e.ready = true)
    (hn : e.networkLayer = some nl) (hnet : nl.isNetwork = true) :
    ∃ fr : Frame,
      ((writeTo cfg false false ft addr p inj).2 =
        match inj with
        | some er => .injectFail er fr
        | none => .ok p.length fr) ∧
      fr.tcp.srcPort = cfg.localPort ∧ fr.tcp.dstPort = addr.port ∧
      fr.tcp.window = 12580 ∧ fr.tcp.psh = true ∧ fr.tcp.ackFlag = true ∧
      fr.tcp.seq = e.seq ∧ fr.tcp.ack = e.ack := by
  refine ⟨{ link := e.linkLayer, net := nl
            tcp := mkWriteTCP cfg addr e, payload := p }, ?_,
          rfl, rfl, rfl, rfl, rfl, rfl, rfl⟩
  cases inj with
  | none => rw [writeTo_ok_step cfg ft addr p e nl hl hr hn hnet]
  | some er => rw [writeTo_fail_step cfg ft addr p er e nl hl hr hn hnet]

/-- C7 witness: the header property evaluated at a concrete connection,
flow and payload. -/
theorem writeTo_frame_header_witness :
    ∃ fr : Frame,
      ((writeTo cfgA false false [(peerA, popFlow)] peerA [1, 2] none).2 =
        match (none : Option Err) with
        | some er => .injectFail er fr
        | none => .ok (List.length [1, 2]) fr) ∧
      fr.tcp.srcPort = cfgA.localPort ∧ fr.tcp.dstPort = peerA.port ∧
      fr.tcp.window = 12580 ∧ fr.tcp.psh = true ∧ fr.tcp.ackFlag = true ∧
      fr.tcp.seq = popFlow.seq ∧ fr.tcp.ack = popFlow.ack :=
  writeTo_frame_header cfgA [(peerA, popFlow)] peerA [1, 2] none popFlow
    (.ip4 ip4Tmpl) (by decide) (by decide) rfl (by decide)

/-- C8: if raw frame injection fails inside `WriteTo`, the error is returned
to the caller with 0 bytes written, the peer's flow entry is neither deleted
nor invalidated, and every flow's state — in particular the seq — is exactly
as before the call, so a retry uses the same seq. -/
theorem writeTo_inject_failure (cfg : ConnCfg) (ft : FlowTable) (addr : TCPAddr)
    (p : List Nat) (er : Err) (e : tcpFlow) (nl : SerializableLayer)
    (hl : ftLookup ft addr = some e) (hr : e.ready = true)
    (hn : e.networkLayer = some nl) (hnet : nl.isNetwork = true) :
    ∃ fr : Frame,
      (writeTo cfg false false ft addr p (some er)).2 = .injectFail er fr ∧
      ((writeTo cfg false false ft addr p (some er)).2).bytes = 0 ∧
      ∀ b, ftLookup (writeTo cfg false false ft addr p (some er)).1 b =
        ftLookup ft b := by
  rw [writeTo_fail_step cfg ft addr p er e nl hl hr hn hnet]
  refine ⟨_, rfl, rfl, ?_⟩
  intro b
  rw [ftLookup_insert]
  by_cases hba : b = addr
  · subst hba
    rw [if_pos rfl, hl]
  · rw [if_neg hba]

/-- C8 witness: injection failure at a concrete connection, flow, payload
and error. -/
theorem writeTo_inject_failure_witness :
    ∃ fr : Frame,
      (writeTo cfgA false false [(peerA, popFlow)] peerA [1, 2] (some ⟨5⟩)).2 =
        .injectFail ⟨5⟩ fr ∧
      ((writeTo cfgA false false [(peerA, popFlow)] peerA [1, 2] (some ⟨5⟩)).2).bytes = 0 ∧
      ∀ b, ftLookup (writeTo cfgA false false [(peerA, popFlow)] peerA [1, 2] (some ⟨5⟩)).1 b =
        ftLookup [(peerA, popFlow)] b :=
  writeTo_inject_failure cfgA [(peerA, popFlow)] peerA [1, 2] ⟨5⟩ popFlow
    (.ip4 ip4Tmpl) (by decide) (by decide) rfl (by decide)

/-- C10: for every delivered message and caller buffer, `ReadFrom` returns
`n = min |buf| |payload|`, the first `n` payload bytes copied into the front
of the buffer, and the peer address; a payload longer than the buffer is
silently truncated with no error. -/
theorem readFrom_copy_semantics (choice : Bool) (m : message) (buf : List Nat) :
    readFrom false choice (some m) buf =
      .msg (min buf.length m.bts.length)
        (m.bts.take (min buf.length m.bts.length) ++
          buf.drop (min buf.length m.bts.length)) m.addr := by
  simp [readFrom, goCopy]

/-- A client connection state, not yet closed, whose shadow-socket close
will report an error. -/
def closeStErr : CloseState :=
  { dieDone := false, dieClosed := false, numHandles := 2, handleCloses := 0
    socketCloses := 0, socketTTL := 0, socketIsTCP := true
    socketCloseErr := some ⟨5⟩ }

/-- A client connection state, not yet closed, whose shadow-socket close
succeeds. -/
def closeStOk : CloseState :=
  { dieDone := false, dieClosed := false, numHandles := 2, handleCloses := 0
    socketCloses := 0, socketTTL := 0, socketIsTCP := true
    socketCloseErr := none }

/-- C3 counterexample: when the shadow socket's `Close()` fails, the first
`Close` returns that error but a second `Close` returns `nil` (the `err`
local of the second call is never assigned), so repeated calls do not return
the same result. -/
theorem close_second_result_differs :
    (closeConn (closeConn closeStErr).2).1 ≠ (closeConn closeStErr).1 := by decide

/-- C3 amended: `Close` closes the capture handles and the shadow socket
exactly once across all calls, and a second or later call is a state no-op
that returns `nil` — which equals the first call's result exactly when the
first socket close succeeded. -/
theorem close_idempotent_amended (s : CloseState) (h : s.dieDone = false) :
    (closeConn s).2.handleCloses = s.handleCloses + s.numHandles ∧
    (closeConn s).2.socketCloses = s.socketCloses + 1 ∧
    closeConn (closeConn s).2 = (none, (closeConn s).2) ∧
    (s.socketCloseErr = none → (closeConn (closeConn s).2).1 = (closeConn s).1) := by
  simp [closeConn, h]
  exact fun hh => hh.symm

/-- C3 witness: the amended property at a concrete connection state. -/
theorem close_idempotent_amended_witness :
    (closeConn closeStOk).2.handleCloses = closeStOk.handleCloses + closeStOk.numHandles ∧
    (closeConn closeStOk).2.socketCloses = closeStOk.socketCloses + 1 ∧
    closeConn (closeConn closeStOk).2 = (none, (closeConn closeStOk).2) ∧
    (closeStOk.socketCloseErr = none →
      (closeConn (closeConn closeStOk).2).1 = (closeConn closeStOk).1) :=
  close_idempotent_amended closeStOk (by decide)

/-- C2 counterexample: an inbound segment from `peerA` carrying FIN and SYN
does not delete the flow entry — the `else if` chain of lines 159-170 takes
the SYN branch and never reaches `deleteflow`. -/
theorem finSyn_keeps_entry :
    ftLookup (processPacket false 1 [(peerA, popFlow)] finSynPkt).1 peerA ≠ none := by
  decide

/-- C2 amended: the capture loop deletes P's flow entry for an inbound
FIN or RST segment only when that segment carries neither SYN nor PSH
(deleting no other peer's entry); a FIN/RST segment that also carries SYN or
PSH instead runs the SYN/PSH handling, which leaves (or re-creates) the
entry. -/
theorem fin_rst_delete_amended (d : Bool) (h : Nat) (ft : FlowTable)
    (pkt : Packet) (hfr : pkt.tcp.fin = true ∨ pkt.tcp.rst = true) :
    (pkt.tcp.syn = false → pkt.tcp.psh = false →
      ftLookup (processPacket d h ft pkt).1 (packetAddr pkt) = none ∧
      ∀ b, b ≠ packetAddr pkt →
        ftLookup (processPacket d h ft pkt).1 b = ftLookup ft b) ∧
    (pkt.tcp.syn = true ∨ pkt.tcp.psh = true →
      ftLookup (processPacket d h ft pkt).1 (packetAddr pkt) ≠ none) := by
  have hphase1 : pktPhase1 h ft pkt = ft := by
    rcases hfr with hf | hr2
    · simp [pktPhase1, hf]
    · simp [pktPhase1, hr2]
  constructor
  · intro hsyn hpsh
    have hfr2 : pkt.tcp.fin = true ∨ pkt.tcp.rst = true := hfr
    constructor
    · rcases hfr2 with hf | hr2
      · simp [processPacket, hphase1, pktPhase2, hsyn, hpsh, hf, ftLookup_delete]
      · simp [processPacket, hphase1, pktPhase2, hsyn, hpsh, hr2, ftLookup_delete]
    · intro b hb
      rcases hfr2 with hf | hr2
      · simp [processPacket, hphase1, pktPhase2, hsyn, hpsh, hf,
          ftLookup_delete, hb]
      · simp [processPacket, hphase1, pktPhase2, hsyn, hpsh, hr2,
          ftLookup_delete, hb]
  · intro hsp
    by_cases hs : pkt.tcp.syn = true
    · simp [processPacket, hphase1, pktPhase2, hs, ftLookup_lockflow]
    · have hs0 : pkt.tcp.syn = false := by
        cases hval : pkt.tcp.syn
        · rfl
        · exact absurd hval hs
      have hp : pkt.tcp.psh = true := by
        rcases hsp with hsp | hsp
        · exact absurd hsp hs
        · exact hsp
      cases hd : d <;>
        simp [processPacket, hphase1, pktPhase2, hs0, hp, ftLookup_lockflow]

/-- C2 amended witness: a concrete FIN-only segment deletes the entry. -/
theorem fin_rst_delete_amended_witness :
    ((rstPkt.tcp.syn = false → rstPkt.tcp.psh = false →
      ftLookup (processPacket false 1 [(peerA, popFlow)] rstPkt).1 (packetAddr rstPkt) = none ∧
      ∀ b, b ≠ packetAddr rstPkt →
        ftLookup (processPacket false 1 [(peerA, popFlow)] rstPkt).1 b =
          ftLookup [(peerA, popFlow)] b) ∧
    (rstPkt.tcp.syn = true ∨ rstPkt.tcp.psh = true →
      ftLookup (processPacket false 1 [(peerA, popFlow)] rstPkt).1 (packetAddr rstPkt) ≠ none)) :=
  fin_rst_delete_amended false 1 [(peerA, popFlow)] rstPkt (Or.inr (by decide))

/-- A concrete message a draining capture loop is offering on `chMessage`. -/
def msgA : message := ⟨[1, 2], peerA⟩

/-- C9 counterexample: with the shutdown latch closed but a capture-loop
producer still offering a message on the rendezvous channel, the select in
`ReadFrom` may pick the message case (Go chooses pseudo-randomly among
ready cases), so a post-`Close` `ReadFrom` can return data rather than
end-of-stream. -/
theorem readFrom_after_close_delivers :
    readFrom true false (some msgA) [0, 0, 0] ≠ .eof := by decide

/-- C9 amended: after `Close` latches shutdown, a `ReadFrom` with no
concurrently committable capture-loop send returns end-of-stream, and a
`WriteTo` blocked on an unsignaled `ready` latch returns end-of-stream
rather than remaining blocked; only a `ReadFrom` that races a still-draining
capture-loop send may return that message instead. -/
theorem close_unblocks_amended (choice : Bool) (buf p : List Nat)
    (cfg : ConnCfg) (ft : FlowTable) (addr : TCPAddr) (inj : Option Err)
    (hready : ((lockflow ft addr (fun e => e)).2).ready = false) :
    readFrom true choice none buf = .eof ∧
    (writeTo cfg true choice ft addr p inj).2 = .eof := by
  constructor
  · simp [readFrom]
  · simp [writeTo, hready]

/-- C9 amended witness: concrete post-close `ReadFrom` and blocked `WriteTo`
(peer with no flow entry, hence a fresh unsignaled latch). -/
theorem close_unblocks_amended_witness :
    readFrom true true none [] = .eof ∧
    (writeTo cfgA true true [] peerA [] none).2 = .eof :=
  close_unblocks_amended true [] [] cfgA [] peerA none (by decide)

/-- C1 (refuted — code bug): peer `peerA` has a populated, ready flow.
`WriteTo` performs its line-189 fetch and sees the signaled latch; the
capture loop then processes an RST from `peerA`, deleting the entry;
`WriteTo` resumes past the wait and its line-208 snapshot `lockflow`
default-creates a fresh entry whose templates are all `nil` — contradicting
the claim that `WriteTo` never reads templates from a default-created entry
— and the `flow.networkLayer.(gopacket.NetworkLayer)` type assertion on the
`nil` interface value panics instead of being safe. -/
theorem writeTo_delete_race_nil_assert :
    ((lockflow [(peerA, popFlow)] peerA (fun e => e)).2).ready = true ∧
    ftLookup (processPacket false 1
        (lockflow [(peerA, popFlow)] peerA (fun e => e)).1 rstPkt).1 peerA = none ∧
    (lockflow (processPacket false 1
        (lockflow [(peerA, popFlow)] peerA (fun e => e)).1 rstPkt).1 peerA
        (fun e => e)).2 = defaultFlow ∧
    (writeToAfterWait cfgA (processPacket false 1
        (lockflow [(peerA, popFlow)] peerA (fun e => e)).1 rstPkt).1 peerA
        [42] none).2 = .typeAssertPanic := by
  decide

theorem wrap32_add_left (a b : Nat) : wrap32 (wrap32 a + b) = wrap32 (a + b) := by
  unfold wrap32
  exact Nat.mod_add_mod a (2 ^ 32) b

theorem wrap32_lt (n : Nat) : wrap32 n < 2 ^ 32 := Nat.mod_lt _ (by norm_num)

theorem wrap32_eq_of_lt {n : Nat} (h : n < 2 ^ 32) : wrap32 n = n :=
  Nat.mod_eq_of_lt h

/-- Template initialization never touches the `seq` field. -/
theorem flowInit_seq (h : Nat) (pkt : Packet) (x : tcpFlow) :
    (flowInit h pkt x).seq = x.seq := by
  unfold flowInit
  cases pkt.eth <;> cases pkt.loop <;> cases pkt.ip4 <;> cases pkt.ip6 <;> simp

/-- Induction workhorse for C4: running `runWrites` from a ready, populated
entry emits segment `i` with seq `seq_0 + Σ_{j<i} |p_j|` mod `2^32` and
leaves the entry with seq `seq_0 + Σ_j |p_j|` mod `2^32`. -/
theorem runWrites_accum (cfg : ConnCfg) (addr : TCPAddr)
    (ps : List (List Nat)) :
    ∀ (ft : FlowTable) (e : tcpFlow) (nl : SerializableLayer),
      ftLookup ft addr = some e → e.ready = true →
      e.networkLayer = some nl → nl.isNetwork = true → e.seq < 2 ^ 32 →
      (∀ i p, ps[i]? = some p →
        ∃ fr, ((runWrites cfg ft addr ps).2)[i]? = some (.ok p.length fr) ∧
          fr.tcp.seq = wrap32 (e.seq + sumLen (List.take i ps))) ∧
      ftLookup (runWrites cfg ft addr ps).1 addr =
        some { e with seq := wrap32 (e.seq + sumLen ps) } := by
  induction ps with
  | nil =>
      intro ft e nl hl hr hn hnet hseq
      constructor
      · intro i p hp
        simp at hp
      · simp [runWrites, sumLen, wrap32_eq_of_lt hseq, hl]
  | cons p rest ih =>
      intro ft e nl hl hr hn hnet hseq
      have hstep := writeTo_ok_step cfg ft addr p e nl hl hr hn hnet
      have hl2 : ftLookup (ftInsert ft addr { e with seq := wrap32 (e.seq + p.length) }) addr =
          some { e with seq := wrap32 (e.seq + p.length) } := by
        simp [ftLookup_insert]
      obtain ⟨ihA, ihB⟩ := ih (ftInsert ft addr { e with seq := wrap32 (e.seq + p.length) })
        { e with seq := wrap32 (e.seq + p.length) } nl hl2 hr hn hnet (wrap32_lt _)
      have hrw : runWrites cfg ft addr (p :: rest) =
          ((runWrites cfg (ftInsert ft addr { e with seq := wrap32 (e.seq + p.length) }) addr rest).1,
           .ok p.length { link := e.linkLayer, net := nl
                          tcp := mkWriteTCP cfg addr e, payload := p }
             :: (runWrites cfg (ftInsert ft addr { e with seq := wrap32 (e.seq + p.length) }) addr rest).2) := by
        simp [runWrites, hstep]
      constructor
      · intro i q hq
        cases i with
        | zero =>
            simp only [List.getElem?_cons_zero, Option.some.injEq] at hq
            subst hq
            refine ⟨{ link := e.linkLayer, net := nl
                      tcp := mkWriteTCP cfg addr e, payload := p }, ?_, ?_⟩
            · simp [hrw]
            · simp [mkWriteTCP, sumLen, wrap32_eq_of_lt hseq]
        | succ j =>
            simp only [List.getElem?_cons_succ] at hq
            obtain ⟨fr, hfr1, hfr2⟩ := ihA j q hq
            refine ⟨fr, ?_, ?_⟩
            · simp [hrw, hfr1]
            · rw [hfr2]
              show wrap32 (wrap32 (e.seq + p.length) + sumLen (List.take j rest)) = _
              rw [wrap32_add_left, List.take_succ_cons, sumLen, Nat.add_assoc]
      · rw [hrw]
        simp only []
        rw [ihB]
        show some { e with seq := wrap32 (wrap32 (e.seq + p.length) + sumLen rest) } = _
        rw [wrap32_add_left, sumLen, Nat.add_assoc]

/-- C4: for a ready, populated flow, running `WriteTo` calls with payloads
`p_0, ..., p_{n-1}` back to back (shutdown open, injections succeeding, no
intervening inbound packet for the peer), the i-th injected segment's TCP
seq equals `seq_0 + Σ_{j<i} |p_j|` mod `2^32`, where `seq_0` is the flow's
seq at the start (unchanged since `ready` was signaled); afterwards the
entry's seq is `seq_0 + Σ_j |p_j|` mod `2^32`, and a zero-length `WriteTo`
leaves the entry — in particular its seq — unchanged. -/
theorem writeTo_seq_accumulation (cfg : ConnCfg) (addr : TCPAddr)
    (ps : List (List Nat)) (ft : FlowTable) (e : tcpFlow)
    (nl : SerializableLayer)
    (hl : ftLookup ft addr = some e) (hr : e.ready = true)
    (hn : e.networkLayer = some nl) (hnet : nl.isNetwork = true)
    (hseq : e.seq < 2 ^ 32) :
    (∀ i p, ps[i]? = some p →
      ∃ fr, ((runWrites cfg ft addr ps).2)[i]? = some (.ok p.length fr) ∧
        fr.tcp.seq = wrap32 (e.seq + sumLen (List.take i ps))) ∧
    ftLookup (runWrites cfg ft addr ps).1 addr =
      some { e with seq := wrap32 (e.seq + sumLen ps) } ∧
    ftLookup (writeTo cfg false false ft addr [] none).1 addr = some e := by
  obtain ⟨hA, hB⟩ := runWrites_accum cfg addr ps ft e nl hl hr hn hnet hseq
  refine ⟨hA, hB, ?_⟩
  rw [writeTo_ok_step cfg ft addr [] e nl hl hr hn hnet]
  simp [ftLookup_insert, wrap32_eq_of_lt hseq]

/-- C4 witness: three writes of lengths 3, 0, 2 from seq 100 emit segments
with seqs 100, 103, 103 and leave the flow's seq at 105. -/
theorem writeTo_seq_accumulation_witness :
    (∀ i p, ([[1, 2, 3], [], [4, 5]] : List (List Nat))[i]? = some p →
      ∃ fr, ((runWrites cfgA [(peerA, popFlow)] peerA [[1, 2, 3], [], [4, 5]]).2)[i]? =
          some (.ok p.length fr) ∧
        fr.tcp.seq = wrap32 (popFlow.seq + sumLen (List.take i [[1, 2, 3], [], [4, 5]]))) ∧
    ftLookup (runWrites cfgA [(peerA, popFlow)] peerA [[1, 2, 3], [], [4, 5]]).1 peerA =
      some { popFlow with seq := wrap32 (popFlow.seq + sumLen [[1, 2, 3], [], [4, 5]]) } ∧
    ftLookup (writeTo cfgA false false [(peerA, popFlow)] peerA [] none).1 peerA =
      some popFlow :=
  writeTo_seq_accumulation cfgA peerA [[1, 2, 3], [], [4, 5]] [(peerA, popFlow)]
    popFlow (.ip4 ip4Tmpl) (by decide) (by decide) rfl (by decide) (by decide)

/-- The flow entry visible between the two halves of a capture-loop
iteration: after the non-FIN/RST update block (lines 107-157) and before
the SYN/PSH/FIN-RST chain (lines 159-170). -/
def midFlow (h : Nat) (ft : FlowTable) (pkt : Packet) : tcpFlow :=
  (ftLookup (pktPhase1 h ft pkt) (packetAddr pkt)).getD defaultFlow

/-- C5: for every inbound packet with neither FIN nor RST the capture loop
sets the flow's seq to the packet's TCP ack number (and phase 2 never
changes seq); additionally, for every inbound packet with SYN the flow's
ack is incremented by 1, and otherwise for every inbound packet with PSH
the flow's ack is incremented by the payload length and `(payload, peer)`
is pushed onto the inbound queue (when shutdown is not latched). -/
theorem capture_seq_ack_update (d : Bool) (h : Nat) (ft : FlowTable)
    (pkt : Packet) :
    (pkt.tcp.fin = false → pkt.tcp.rst = false →
      ftLookup (pktPhase1 h ft pkt) (packetAddr pkt) = some (midFlow h ft pkt) ∧
      (midFlow h ft pkt).seq = pkt.tcp.ack ∧
      ∀ e2, ftLookup (processPacket d h ft pkt).1 (packetAddr pkt) = some e2 →
        e2.seq = pkt.tcp.ack) ∧
    (pkt.tcp.syn = true →
      ftLookup (processPacket d h ft pkt).1 (packetAddr pkt) =
        some { midFlow h ft pkt with
               ack := wrap32 ((midFlow h ft pkt).ack + 1) }) ∧
    (pkt.tcp.syn = false → pkt.tcp.psh = true →
      ftLookup (processPacket d h ft pkt).1 (packetAddr pkt) =
        some { midFlow h ft pkt with
               ack := wrap32 ((midFlow h ft pkt).ack + pkt.tcp.payload.length) } ∧
      (d = false →
        (processPacket d h ft pkt).2 = .pushed ⟨pkt.tcp.payload, packetAddr pkt⟩)) := by
  have hsynCase : pkt.tcp.syn = true →
      ftLookup (processPacket d h ft pkt).1 (packetAddr pkt) =
        some { midFlow h ft pkt with ack := wrap32 ((midFlow h ft pkt).ack + 1) } := by
    intro hs
    simp [processPacket, pktPhase2, hs, ftLookup_lockflow, midFlow]
  have hpshCase : pkt.tcp.syn = false → pkt.tcp.psh = true →
      ftLookup (processPacket d h ft pkt).1 (packetAddr pkt) =
        some { midFlow h ft pkt with
               ack := wrap32 ((midFlow h ft pkt).ack + pkt.tcp.payload.length) } ∧
      (d = false →
        (processPacket d h ft pkt).2 = .pushed ⟨pkt.tcp.payload, packetAddr pkt⟩) := by
    intro hs hp
    constructor
    · cases hd : d <;>
        simp [processPacket, pktPhase2, hs, hp, ftLookup_lockflow, midFlow]
    · intro hd
      subst hd
      simp [processPacket, pktPhase2, hs, hp]
  refine ⟨?_, hsynCase, hpshCase⟩
  intro hfin hrst
  have hmid : ftLookup (pktPhase1 h ft pkt) (packetAddr pkt) = some (midFlow h ft pkt) := by
    simp only [pktPhase1, hfin, hrst, Bool.not_false, Bool.and_self, if_true, midFlow]
    rw [ftLookup_lockflow, if_pos rfl]
    rfl
  have hmidseq : (midFlow h ft pkt).seq = pkt.tcp.ack := by
    simp only [midFlow, pktPhase1, hfin, hrst, Bool.not_false, Bool.and_self, if_true]
    rw [ftLookup_lockflow, if_pos rfl]
    simp only [Option.getD_some]
    by_cases hready : ((ftLookup ft (packetAddr pkt)).getD defaultFlow).ready
    · simp [hready]
    · simp only [hready]
      simp [flowInit_seq, hready]
  refine ⟨hmid, hmidseq, ?_⟩
  intro e2 he2
  by_cases hs : pkt.tcp.syn = true
  · rw [hsynCase hs] at he2
    cases he2
    exact hmidseq
  · have hs0 : pkt.tcp.syn = false := by
      cases hval : pkt.tcp.syn
      · rfl
      · exact absurd hval hs
    by_cases hp : pkt.tcp.psh = true
    · rw [(hpshCase hs0 hp).1] at he2
      cases he2
      exact hmidseq
    · have hp0 : pkt.tcp.psh = false := by
        cases hval : pkt.tcp.psh
        · rfl
        · exact absurd hval hp
      have : ftLookup (processPacket d h ft pkt).1 (packetAddr pkt) =
          some (midFlow h ft pkt) := by
        simp [processPacket, pktPhase2, hs0, hp0, hfin, hrst, hmid]
      rw [this] at he2
      cases he2
      exact hmidseq

/-- An inbound PSH data segment from `peerA` with a 2-byte payload. -/
def pshPkt : Packet :=
  { eth := none, loop := some ⟨2⟩, ip4 := some ip4FromPeer, ip6 := none
    tcp := { baseTcp with psh := true, payload := [9, 9] } }

/-- C5 witness: the seq-follow and PSH behavior at a concrete packet and
table. -/
theorem capture_seq_ack_update_witness :
    ftLookup (pktPhase1 1 [(peerA, popFlow)] pshPkt) (packetAddr pshPkt) =
      some (midFlow 1 [(peerA, popFlow)] pshPkt) ∧
    (midFlow 1 [(peerA, popFlow)] pshPkt).seq = pshPkt.tcp.ack ∧
    ftLookup (processPacket false 1 [(peerA, popFlow)] pshPkt).1 (packetAddr pshPkt) =
      some { midFlow 1 [(peerA, popFlow)] pshPkt with
             ack := wrap32 ((midFlow 1 [(peerA, popFlow)] pshPkt).ack +
               pshPkt.tcp.payload.length) } ∧
    (processPacket false 1 [(peerA, popFlow)] pshPkt).2 =
      .pushed ⟨pshPkt.tcp.payload, packetAddr pshPkt⟩ := by
  obtain ⟨hA, hB, hC⟩ := capture_seq_ack_update false 1 [(peerA, popFlow)] pshPkt
  obtain ⟨h1, h2, h3⟩ := hA (by decide) (by decide)
  obtain ⟨h4, h5⟩ := hC (by decide) (by decide)
  exact ⟨h1, h2, h4, h5 rfl⟩

/-! ## Invariant and stability of ready entries (C6) -/

theorem lockflow_fst (ft : FlowTable) (b : TCPAddr) (f : tcpFlow → tcpFlow) :
    (lockflow ft b f).1 = ftInsert ft b (f ((ftLookup ft b).getD defaultFlow)) := by
  unfold lockflow
  cases ftLookup ft b <;> rfl

theorem flowOk_defaultFlow : flowOk defaultFlow := by
  intro h
  simp [defaultFlow] at h

theorem flowOk_of_lookup {ft : FlowTable} {b : TCPAddr} {x : tcpFlow}
    (hinv : readyPopulated ft) (hx : ftLookup ft b = some x) : flowOk x :=
  hinv (b, x) (ftLookup_mem hx)

theorem flowOk_getD {ft : FlowTable} (b : TCPAddr)
    (hinv : readyPopulated ft) : flowOk ((ftLookup ft b).getD defaultFlow) := by
  cases hx : ftLookup ft b with
  | none => exact flowOk_defaultFlow
  | some x => exact flowOk_of_lookup hinv hx

/-- Lemma: `lockflow` keeps the invariant as long as the closure keeps the fetched
entry well-formed. -/
theorem readyPopulated_lockflow {ft : FlowTable} {b : TCPAddr}
    {f : tcpFlow → tcpFlow} (hinv : readyPopulated ft)
    (hf : flowOk ((ftLookup ft b).getD defaultFlow) →
      flowOk (f ((ftLookup ft b).getD defaultFlow))) :
    readyPopulated (lockflow ft b f).1 := by
  rw [lockflow_fst]
  intro pr hpr
  rcases mem_ftInsert hpr with hpr | hpr
  · rw [hpr]
    exact hf (flowOk_getD b hinv)
  · exact hinv pr hpr

theorem readyPopulated_delete {ft : FlowTable} (b : TCPAddr)
    (hinv : readyPopulated ft) : readyPopulated (ftDelete ft b) :=
  fun pr hpr => hinv pr (mem_ftDelete hpr)

/-- If template initialization signals `ready` from an unsignaled entry, it
has installed the handle and both templates. -/
theorem flowInit_ready_populated (h : Nat) (pkt : Packet) (x : tcpFlow)
    (hx : x.ready = false) (hready : (flowInit h pkt x).ready = true) :
    (flowInit h pkt x).handle.isSome = true ∧
    (flowInit h pkt x).linkLayer.isSome = true ∧
    (flowInit h pkt x).networkLayer.isSome = true := by
  obtain ⟨pe, pl, p4, p6, pt⟩ := pkt
  unfold flowInit at hready ⊢
  cases pe <;> cases pl <;> cases p4 <;> cases p6 <;> simp_all

/-- The phase-1 closure keeps entries well-formed. -/
theorem flowOk_phase1_closure (h : Nat) (pkt : Packet) (x : tcpFlow)
    (hx : flowOk x) :
    flowOk (let e1 : tcpFlow := { x with seq := pkt.tcp.ack }
            if e1.ready then e1 else flowInit h pkt e1) := by
  dsimp only
  unfold flowOk
  split
  · intro _
    exact hx (by assumption)
  · intro hr2
    have hx0 : ({ x with seq := pkt.tcp.ack } : tcpFlow).ready = false := by
      cases hval : ({ x with seq := pkt.tcp.ack } : tcpFlow).ready
      · rfl
      · exact absurd hval (by assumption)
    exact flowInit_ready_populated h pkt { x with seq := pkt.tcp.ack } hx0 hr2

/-- Field-preserving updates keep entries well-formed: `seq` update. -/
theorem flowOk_set_seq {x : tcpFlow} (hx : flowOk x) (v : Nat) :
    flowOk { x with seq := v } := fun hr => hx hr

/-- Field-preserving updates keep entries well-formed: `ack` update. -/
theorem flowOk_set_ack {x : tcpFlow} (hx : flowOk x) (v : Nat) :
    flowOk { x with ack := v } := fun hr => hx hr

/-- Lemma: `pktPhase1` preserves the invariant. -/
theorem readyPopulated_pktPhase1 (h : Nat) {ft : FlowTable} (pkt : Packet)
    (hinv : readyPopulated ft) : readyPopulated (pktPhase1 h ft pkt) := by
  unfold pktPhase1
  by_cases hc : (!pkt.tcp.fin && !pkt.tcp.rst) = true
  · rw [if_pos hc]
    exact readyPopulated_lockflow hinv (fun hok => flowOk_phase1_closure h pkt _ hok)
  · rw [if_neg hc]
    exact hinv

/-- Lemma: `pktPhase2` preserves the invariant. -/
theorem readyPopulated_pktPhase2 (d : Bool) {ft : FlowTable} (pkt : Packet)
    (hinv : readyPopulated ft) : readyPopulated (pktPhase2 d ft pkt).1 := by
  unfold pktPhase2
  cases hsv : pkt.tcp.syn with
  | true =>
      simp only [if_true]
      exact readyPopulated_lockflow hinv (fun hok => flowOk_set_ack hok _)
  | false =>
      cases hpv : pkt.tcp.psh with
      | true =>
          simp only [Bool.false_eq_true, if_false, if_true]
          cases d <;>
            · simp only [Bool.false_eq_true, if_false, if_true]
              exact readyPopulated_lockflow hinv (fun hok => flowOk_set_ack hok _)
      | false =>
          cases hfv : (pkt.tcp.fin || pkt.tcp.rst) with
          | true =>
              simp only [Bool.false_eq_true, if_false, if_true]
              exact readyPopulated_delete _ hinv
          | false =>
              simp only [Bool.false_eq_true, if_false]
              exact hinv

/-- Every atomic flow-table access preserves the invariant. -/
theorem readyPopulated_applyOp (op : TableOp) {ft : FlowTable}
    (hinv : readyPopulated ft) : readyPopulated (applyOp op ft) := by
  cases op with
  | pkt d h p =>
      exact readyPopulated_pktPhase2 d p (readyPopulated_pktPhase1 h p hinv)
  | wFetch addr => exact readyPopulated_lockflow hinv (fun hok => hok)
  | wSnap addr => exact readyPopulated_lockflow hinv (fun hok => hok)
  | wAdvance addr n =>
      exact readyPopulated_lockflow hinv (fun hok => flowOk_set_seq hok _)

/-- A `lockflow` whose closure preserves `ready`, handle and templates on
the entry at `a` leaves those fields of `a`'s entry intact. -/
theorem lockflow_entry_frozen {ft : FlowTable} {b a : TCPAddr}
    {f : tcpFlow → tcpFlow} {e1 e2 : tcpFlow}
    (hl : ftLookup ft a = some e1)
    (hf : (f e1).ready = e1.ready ∧ (f e1).handle = e1.handle ∧
      (f e1).linkLayer = e1.linkLayer ∧ (f e1).networkLayer = e1.networkLayer)
    (hl2 : ftLookup (lockflow ft b f).1 a = some e2) :
    e2.ready = e1.ready ∧ e2.handle = e1.handle ∧
    e2.linkLayer = e1.linkLayer ∧ e2.networkLayer = e1.networkLayer := by
  rw [ftLookup_lockflow] at hl2
  by_cases hab : a = b
  · rw [if_pos hab, ← hab, hl] at hl2
    simp only [Option.getD_some, Option.some.injEq] at hl2
    subst hl2
    exact hf
  · rw [if_neg hab, hl] at hl2
    simp only [Option.some.injEq] at hl2
    subst hl2
    exact ⟨rfl, rfl, rfl, rfl⟩

/-- Phase 1 of a capture-loop iteration keeps a ready entry's latch
signaled and its handle and templates unchanged. -/
theorem pktPhase1_entry_frozen (h : Nat) (ft : FlowTable) (pkt : Packet)
    (a : TCPAddr) (e : tcpFlow) (hl : ftLookup ft a = some e)
    (hr : e.ready = true) :
    ∃ e1, ftLookup (pktPhase1 h ft pkt) a = some e1 ∧ e1.ready = true ∧
      e1.handle = e.handle ∧ e1.linkLayer = e.linkLayer ∧
      e1.networkLayer = e.networkLayer := by
  unfold pktPhase1
  cases hc : (!pkt.tcp.fin && !pkt.tcp.rst) with
  | false => exact ⟨e, by simp [hl], hr, rfl, rfl, rfl⟩
  | true =>
      simp only [if_true]
      rw [ftLookup_lockflow]
      by_cases hab : a = packetAddr pkt
      · rw [if_pos hab, ← hab, hl]
        simp only [Option.getD_some]
        refine ⟨{ e with seq := pkt.tcp.ack }, ?_, hr, rfl, rfl, rfl⟩
        simp [hr]
      · rw [if_neg hab, hl]
        exact ⟨e, rfl, hr, rfl, rfl, rfl⟩

/-- Phase 2 of a capture-loop iteration never changes a surviving entry's
latch, handle or templates. -/
theorem pktPhase2_entry_frozen (d : Bool) (ft : FlowTable) (pkt : Packet)
    (a : TCPAddr) (e1 e2 : tcpFlow) (hl : ftLookup ft a = some e1)
    (hl2 : ftLookup (pktPhase2 d ft pkt).1 a = some e2) :
    e2.ready = e1.ready ∧ e2.handle = e1.handle ∧
    e2.linkLayer = e1.linkLayer ∧ e2.networkLayer = e1.networkLayer := by
  unfold pktPhase2 at hl2
  cases hsv : pkt.tcp.syn with
  | true =>
      rw [hsv] at hl2
      simp only [if_true] at hl2
      exact lockflow_entry_frozen hl ⟨rfl, rfl, rfl, rfl⟩ hl2
  | false =>
      rw [hsv] at hl2
      simp only [Bool.false_eq_true, if_false] at hl2
      cases hpv : pkt.tcp.psh with
      | true =>
          rw [hpv] at hl2
          simp only [if_true] at hl2
          cases d with
          | false =>
              simp only [Bool.false_eq_true, if_false] at hl2
              exact lockflow_entry_frozen hl ⟨rfl, rfl, rfl, rfl⟩ hl2
          | true =>
              simp only [if_true] at hl2
              exact lockflow_entry_frozen hl ⟨rfl, rfl, rfl, rfl⟩ hl2
      | false =>
          rw [hpv] at hl2
          simp only [Bool.false_eq_true, if_false] at hl2
          cases hfv : (pkt.tcp.fin || pkt.tcp.rst) with
          | true =>
              rw [hfv] at hl2
              simp only [if_true] at hl2
              rw [ftLookup_delete] at hl2
              by_cases hab : a = packetAddr pkt
              · rw [if_pos hab] at hl2
                simp at hl2
              · rw [if_neg hab, hl] at hl2
                simp only [Option.some.injEq] at hl2
                subst hl2
                exact ⟨rfl, rfl, rfl, rfl⟩
          | false =>
              rw [hfv] at hl2
              simp only [Bool.false_eq_true, if_false] at hl2
              rw [hl] at hl2
              simp only [Option.some.injEq] at hl2
              subst hl2
              exact ⟨rfl, rfl, rfl, rfl⟩

/-- One atomic access keeps a ready entry signaled with its handle and
templates unchanged. -/
theorem applyOp_entry_frozen (op : TableOp) (ft : FlowTable) (a : TCPAddr)
    (e e' : tcpFlow) (hl : ftLookup ft a = some e) (hr : e.ready = true)
    (hl2 : ftLookup (applyOp op ft) a = some e') :
    e'.ready = true ∧ e'.handle = e.handle ∧ e'.linkLayer = e.linkLayer ∧
    e'.networkLayer = e.networkLayer := by
  cases op with
  | wFetch b =>
      obtain ⟨h1, h2, h3, h4⟩ := lockflow_entry_frozen hl ⟨rfl, rfl, rfl, rfl⟩ hl2
      exact ⟨h1.trans hr, h2, h3, h4⟩
  | wSnap b =>
      obtain ⟨h1, h2, h3, h4⟩ := lockflow_entry_frozen hl ⟨rfl, rfl, rfl, rfl⟩ hl2
      exact ⟨h1.trans hr, h2, h3, h4⟩
  | wAdvance b n =>
      obtain ⟨h1, h2, h3, h4⟩ := lockflow_entry_frozen hl ⟨rfl, rfl, rfl, rfl⟩ hl2
      exact ⟨h1.trans hr, h2, h3, h4⟩
  | pkt d h p =>
      obtain ⟨e1, he1, hr1, hh1, hll1, hnl1⟩ :=
        pktPhase1_entry_frozen h ft p a e hl hr
      obtain ⟨k1, k2, k3, k4⟩ := pktPhase2_entry_frozen d _ p a e1 e' he1 hl2
      exact ⟨k1.trans hr1, k2.trans hh1, k3.trans hll1, k4.trans hnl1⟩

/-- C6: the `ready` latch is one-shot and entries are frozen once signaled.
Starting from any table satisfying the population invariant (signaled
entries have handle and both templates installed — the invariant every
atomic access preserves, per `readyPopulated_applyOp`; note `ready := true`
is assigned only under the not-yet-signaled guard, so a latch is signaled
at most once), run any sequence of atomic flow-table accesses during which
peer `a`'s entry is never deleted (its lifetime).  Then the entry's latch
stays signaled and its `handle`, `linkLayer` and `networkLayer` are
unchanged and non-null. -/
theorem flow_ready_stable (ops : List TableOp) (ft : FlowTable) (a : TCPAddr)
    (e e' : tcpFlow) (hinv : readyPopulated ft)
    (hl : ftLookup ft a = some e) (hr : e.ready = true)
    (hpersist : ∀ pre suff, ops = pre ++ suff →
      ftLookup (applyOps pre ft) a ≠ none)
    (hl2 : ftLookup (applyOps ops ft) a = some e') :
    e'.ready = true ∧ e'.handle = e.handle ∧ e'.linkLayer = e.linkLayer ∧
    e'.networkLayer = e.networkLayer ∧ e'.handle.isSome = true ∧
    e'.linkLayer.isSome = true ∧ e'.networkLayer.isSome = true := by
  induction ops generalizing ft e with
  | nil =>
      have he : e' = e := by
        unfold applyOps at hl2
        rw [hl] at hl2
        simp only [Option.some.injEq] at hl2
        exact hl2.symm
      subst he
      obtain ⟨p1, p2, p3⟩ := flowOk_of_lookup hinv hl hr
      exact ⟨hr, rfl, rfl, rfl, p1, p2, p3⟩
  | cons op rest ih =>
      have h1 : ftLookup (applyOp op ft) a ≠ none := by
        have hstep := hpersist [op] rest rfl
        simpa [applyOps] using hstep
      cases hle1 : ftLookup (applyOp op ft) a with
      | none => exact absurd hle1 h1
      | some e1 =>
          obtain ⟨q1, q2, q3, q4⟩ := applyOp_entry_frozen op ft a e e1 hl hr hle1
          have hinv1 : readyPopulated (applyOp op ft) :=
            readyPopulated_applyOp op hinv
          have hpersist1 : ∀ pre suff, rest = pre ++ suff →
              ftLookup (applyOps pre (applyOp op ft)) a ≠ none := by
            intro pre suff hps
            have := hpersist (op :: pre) suff (by rw [hps]; rfl)
            simpa [applyOps] using this
          have hl2cast : ftLookup (applyOps rest (applyOp op ft)) a = some e' := hl2
          obtain ⟨r1, r2, r3, r4, r5, r6, r7⟩ :=
            ih (applyOp op ft) e1 hinv1 hle1 q1 hpersist1 hl2cast
          exact ⟨r1, r2.trans q2, r3.trans q3, r4.trans q4, r5, r6, r7⟩

/-- C6 witness: the stability property across a concrete access sequence
(a `WriteTo` latch fetch, an inbound PSH segment, a `seq` advance) on a
table holding a ready populated entry. -/
theorem flow_ready_stable_witness :
    popFlow.ready = true ∧ popFlow.handle = popFlow.handle ∧
    popFlow.linkLayer = popFlow.linkLayer ∧
    popFlow.networkLayer = popFlow.networkLayer ∧
    popFlow.handle.isSome = true ∧ popFlow.linkLayer.isSome = true ∧
    popFlow.networkLayer.isSome = true := by
  have hpersist : ∀ pre suff, ([TableOp.wFetch peerA] : List TableOp) = pre ++ suff →
      ftLookup (applyOps pre [(peerA, popFlow)]) peerA ≠ none := by
    intro pre suff hps
    cases pre with
    | nil => decide
    | cons hd tl =>
        injection hps with h5 h6
        cases tl with
        | cons x xs => simp at h6
        | nil =>
            subst h5
            decide
  exact flow_ready_stable [TableOp.wFetch peerA] [(peerA, popFlow)] peerA
    popFlow popFlow (by decide) (by decide) (by decide) hpersist (by decide)

end Tcpraw
